import Mathlib

/-!
Shallow embedding of the auto_qa ingestion pipeline
(src/utils/utils.py, src/utils/ingestion.py, src/test_case/models.py).

Python strings are modelled as Lean String / List Char; machine-level
dictionaries as insertion-ordered association lists; the relational store as
explicit record lists with auto-incrementing integer primary keys; raised
exceptions as Except / Option error values.  Remote HTTP responses are inputs
to the functions that consume them.
-/

/-- The whitespace set of Python str.strip and regex backslash-s
(space, tab, newline, carriage return, vertical tab, form feed);
restricted to ASCII, which covers every input considered here. -/
def isPySpace (c : Char) : Bool :=
  c = ' ' || c = '\t' || c = '\n' || c = '\r' || c = Char.ofNat 11 || c = Char.ofNat 12

/-- Python str.strip(): drop leading and trailing whitespace. -/
def stripChars (l : List Char) : List Char :=
  ((l.dropWhile isPySpace).reverse.dropWhile isPySpace).reverse

/-- Python text.split(backslash-n): split on newline characters; the result is
never empty, and an empty input gives one empty field, as in Python. -/
def splitOnNl : List Char → List (List Char)
  | [] => [[]]
  | c :: rest =>
    if c = '\n' then [] :: splitOnNl rest
    else
      match splitOnNl rest with
      | [] => [[c]]
      | g :: gs => (c :: g) :: gs

/-- Python text.split(sep) for a single-character separator other than
newline (used for the comma split of the refs field). -/
def splitOnChar (sep : Char) : List Char → List (List Char)
  | [] => [[]]
  | c :: rest =>
    if c = sep then [] :: splitOnChar sep rest
    else
      match splitOnChar sep rest with
      | [] => [[c]]
      | g :: gs => (c :: g) :: gs

/-- Python re.sub with pattern: start of line, digits, a dot, then optional
whitespace, replaced by the empty string.  The anchor makes at most one
substitution, at the start of the line. -/
def stripBullet (l : List Char) : List Char :=
  let ds := l.takeWhile Char.isDigit
  if ds.isEmpty then l
  else
    match l.drop ds.length with
    | '.' :: rest => rest.dropWhile isPySpace
    | _ => l

/-- Helper for collapseWs: the Boolean says whether the previous character was
part of a whitespace run already emitted as one space. -/
def collapseWsAux : Bool → List Char → List Char
  | _, [] => []
  | inRun, c :: rest =>
    if isPySpace c then
      if inRun then collapseWsAux true rest
      else ' ' :: collapseWsAux true rest
    else c :: collapseWsAux false rest

/-- Python re.sub replacing every maximal whitespace run by a single space. -/
def collapseWs (l : List Char) : List Char :=
  collapseWsAux false l

/-- The expansion html.escape applies to one character (quote=True default). -/
def escapeChar (c : Char) : List Char :=
  if c = '&' then ['&', 'a', 'm', 'p', ';']
  else if c = '<' then ['&', 'l', 't', ';']
  else if c = '>' then ['&', 'g', 't', ';']
  else if c = '"' then ['&', 'q', 'u', 'o', 't', ';']
  else if c = Char.ofNat 39 then ['&', '#', 'x', '2', '7', ';']
  else [c]

/-- Python html.escape over a whole line. -/
def htmlEscape (l : List Char) : List Char :=
  (l.map escapeChar).flatten

/-- One normalized step record: order is the 1-based line index, description
the sanitized line text. -/
structure Step where
  order : Nat
  description : List Char
deriving DecidableEq

/-- The per-line sanitizing pipeline of sanitize_test_case_text: strip a
leading numeric bullet, collapse whitespace runs, HTML-escape. -/
def sanitizeLine (l : List Char) : List Char :=
  htmlEscape (collapseWs (stripBullet l))

/-- The enumerate(lines, 1) loop body of sanitize_test_case_text: one step
record per line, ordered from the given starting index. -/
def sanitizeLines (i : Nat) : List (List Char) → List Step
  | [] => []
  | l :: rest => ⟨i, sanitizeLine l⟩ :: sanitizeLines (i + 1) rest

/-- src/utils/utils.py sanitize_test_case_text: a falsy input (None or the
empty string) yields the empty list; otherwise the text is stripped, split on
newlines, and every line (empty or not) becomes one step record, enumerated
from 1. -/
def sanitize_test_case_text : Option String → List Step
  | none => []
  | some t =>
    if t = "" then []
    else sanitizeLines 1 (splitOnNl (stripChars t.data))

/-- A timezone-aware UTC instant, identified by its epoch-second value
(datetime.fromtimestamp with tz=timezone.utc). -/
structure UTCDateTime where
  epochSeconds : Int
deriving DecidableEq

/-- src/utils/utils.py convert_timestamp: datetime.fromtimestamp(int(ts),
tz=utc) if ts else None.  An integer timestamp is truthy exactly when it is
nonzero, so both None and 0 map to None. -/
def convert_timestamp : Option Int → Option UTCDateTime
  | none => none
  | some v => if v = 0 then none else some ⟨v⟩

/-- Digit-run decoding for Python int(): after one digit has been read,
further digits accumulate, and a single underscore is allowed between two
digits (as in the literal 1_000). -/
def digitsCore : Nat → List Char → Option Nat
  | acc, [] => some acc
  | acc, c :: rest =>
    if c.isDigit then digitsCore (10 * acc + (c.toNat - 48)) rest
    else if c = '_' then
      match rest with
      | d :: rest2 =>
        if d.isDigit then digitsCore (10 * acc + (d.toNat - 48)) rest2 else none
      | [] => none
    else none

/-- The digit part accepted by Python int(): one or more ASCII digits with
optional single underscores between digits. -/
def parseDigitsU : List Char → Option Nat
  | [] => none
  | c :: rest => if c.isDigit then digitsCore (c.toNat - 48) rest else none

/-- Python int(s) on a string: surrounding whitespace is stripped, an
optional sign precedes the digits; ValueError is modelled as none. -/
def pyIntOfChars (l : List Char) : Option Int :=
  match stripChars l with
  | [] => none
  | c :: rest =>
    if c = '+' then (parseDigitsU rest).map Int.ofNat
    else if c = '-' then (parseDigitsU rest).map (fun n => -(n : Int))
    else (parseDigitsU (c :: rest)).map Int.ofNat

/-- Python item.split(sep) for the two-character separator comma-space,
scanning left to right over non-overlapping occurrences. -/
def splitCommaSpace : List Char → List (List Char)
  | [] => [[]]
  | ',' :: ' ' :: rest => [] :: splitCommaSpace rest
  | c :: rest =>
    match splitCommaSpace rest with
    | [] => [[c]]
    | g :: gs => (c :: g) :: gs

/-- Python dict assignment d[k] = v on an insertion-ordered association
list: an existing key keeps its position and gets the new value, a new key is
appended. -/
def dictInsert (d : List (Int × String)) (k : Int) (v : String) :
    List (Int × String) :=
  if d.any (fun p => p.1 = k) then
    d.map (fun p => if p.1 = k then (k, v) else p)
  else d ++ [(k, v)]

/-- The loop body of get_customers_platforms for one item line: parts =
item.split(comma-space); field_id = int(parts[0]) — a ValueError is caught,
logged and skips the line; label = parts[1].strip() when a second part
exists, else the empty string. -/
def parseItemLine (l : List Char) : Option (Int × String) :=
  match splitCommaSpace l with
  | [] => none
  | p0 :: rest =>
    match pyIntOfChars p0 with
    | none => none
    | some i =>
      match rest with
      | [] => some (i, "")
      | p1 :: _ => some (i, String.mk (stripChars p1))

/-- The per-descriptor item loop of get_customers_platforms: fold the parsed
lines into the sub-dictionary, skipping lines whose id does not parse. -/
def itemsLoop : List (Int × String) → List (List Char) → List (Int × String)
  | d, [] => d
  | d, line :: rest =>
    match parseItemLine line with
    | some (i, lab) => itemsLoop (dictInsert d i lab) rest
    | none => itemsLoop d rest

/-- get_customers_platforms applied to one items payload string: split on
newlines and fold every line through the parse-or-skip loop. -/
def parseItemsToDict (items : String) : List (Int × String) :=
  itemsLoop [] (splitOnNl items.data)

/-- Modelled from the spec words only (for comparison with the code): the
integer part of an item line, read literally as one or more digits. -/
def specIntLiteral (l : List Char) : Bool :=
  !l.isEmpty && l.all Char.isDigit

/-- Modelled from the spec words only: the line shape int-comma-space-text
that §4.3 says every kept line must have. -/
def specWellFormedItemLine (l : List Char) : Bool :=
  match splitCommaSpace l with
  | p0 :: _ :: _ => specIntLiteral p0
  | _ => false

/-- One configuration block of a field descriptor: configs[0].get(options,
empty dict).get(items). -/
structure ConfigBlock where
  items : Option String
deriving DecidableEq

/-- One descriptor of the get_case_fields response payload. -/
structure FieldDescriptor where
  system_name : Option String
  configs : Option (List ConfigBlock)
deriving DecidableEq

/-- The result dictionary of get_customers_platforms, projected to the two
keys it can ever hold (the members of TEST_CASE_FIELDS); none means the key
is absent from the dictionary. -/
structure FieldsResult where
  customers : Option (List (Int × String))
  platforms : Option (List (Int × String))
deriving DecidableEq

/-- The sub-dictionary built for one matching descriptor: items are parsed
only when configs is a truthy list and its first block carries a truthy
items string; otherwise the sub-dictionary stays empty. -/
def descriptorSubDict (res : FieldDescriptor) : List (Int × String) :=
  match res.configs with
  | some (c0 :: _) =>
    match c0.items with
    | some items => if items = "" then [] else parseItemsToDict items
    | none => []
  | _ => []

/-- src/utils/ingestion.py get_customers_platforms: walk the descriptor
list; a descriptor whose system_name is one of the two recognized field
names stores its sub-dictionary under that name (a later descriptor with the
same name overwrites an earlier one, as with a Python dict). -/
def get_customers_platforms (response : List FieldDescriptor) : FieldsResult :=
  response.foldl
    (fun acc res =>
      match res.system_name with
      | some sn =>
        if sn = "custom_customers" then { acc with customers := some (descriptorSubDict res) }
        else if sn = "custom_platfroms" then { acc with platforms := some (descriptorSubDict res) }
        else acc
      | none => acc)
    ⟨none, none⟩

/-- The exceptions the embedding distinguishes.  attributeError models
iterating .items() on None; integrityError the unique-constraint violation a
duplicate create raises; transportError a failed remote fetch. -/
inductive PyErr where
  | attributeError
  | integrityError
  | transportError
deriving DecidableEq

/-- One row of the TestCaseCustomer table (src/test_case/models.py).  The
model declares customer_id with unique=True but without primary_key=True, so
Django adds an implicit auto-increment id field: pk below is that automatic
primary key, distinct from the external customer_id. -/
structure CustomerRow where
  pk : Nat
  customer_id : Int
  name : String
deriving DecidableEq

/-- One row of the TestCasePlatform table, with the same implicit
auto-increment primary key as CustomerRow. -/
structure PlatformRow where
  pk : Nat
  platform_id : Int
  name : String
deriving DecidableEq

/-- One persisted TestCase record as import_test_cases_to_db creates it.
attachedCustomers / attachedPlatforms record the rows passed to the
many-to-many set call; none means set was never called on that relation. -/
structure TCRecord where
  test_rail_id : Option Int
  title : Option String
  tickets : Option (List String)
  tr_created_at : Option UTCDateTime
  tr_updated_at : Option UTCDateTime
  preconditions : List Step
  steps : List Step
  expected_result : List Step
  comments : List Step
  project : String
  suite : String
  sectionName : String
  attachedCustomers : Option (List CustomerRow)
  attachedPlatforms : Option (List PlatformRow)
deriving DecidableEq

/-- The relational store: the three tables ingestion writes, plus the next
auto-increment primary key of each lookup table. -/
structure DB where
  testCases : List TCRecord
  customers : List CustomerRow
  platforms : List PlatformRow
  custSeq : Nat
  platSeq : Nat
deriving DecidableEq

/-- The store with empty tables and primary-key sequences at 1. -/
def emptyDB : DB := ⟨[], [], [], 1, 1⟩

/-- TestCaseCustomer.objects.create: the unique constraint on customer_id
makes a duplicate external id raise; a fresh id is appended with the next
auto-increment primary key. -/
def createCustomer (db : DB) (cid : Int) (name : String) : Except PyErr DB :=
  if db.customers.any (fun r => r.customer_id = cid) then .error .integrityError
  else .ok { db with
    customers := db.customers ++ [⟨db.custSeq, cid, name⟩],
    custSeq := db.custSeq + 1 }

/-- TestCasePlatform.objects.create, as createCustomer. -/
def createPlatform (db : DB) (pid : Int) (name : String) : Except PyErr DB :=
  if db.platforms.any (fun r => r.platform_id = pid) then .error .integrityError
  else .ok { db with
    platforms := db.platforms ++ [⟨db.platSeq, pid, name⟩],
    platSeq := db.platSeq + 1 }

/-- The for-loop of populate_customers: each create sits in its own
try/except, so a failed create is logged and the loop continues on the
unchanged store. -/
def populateCustomersLoop : List (Int × String) → DB → DB
  | [], db => db
  | (cid, name) :: rest, db =>
    match createCustomer db cid name with
    | .ok db2 => populateCustomersLoop rest db2
    | .error _ => populateCustomersLoop rest db

/-- src/utils/ingestion.py populate_customers: when the argument dictionary
is absent (None), the guard only logs and the following customers.items()
call raises AttributeError; an actual dictionary (empty included) runs the
per-entry loop and never raises. -/
def populate_customers (customers : Option (List (Int × String))) (db : DB) :
    Except PyErr DB :=
  match customers with
  | none => .error .attributeError
  | some m => .ok (populateCustomersLoop m db)

/-- The for-loop of populate_platforms, as populateCustomersLoop. -/
def populatePlatformsLoop : List (Int × String) → DB → DB
  | [], db => db
  | (pid, name) :: rest, db =>
    match createPlatform db pid name with
    | .ok db2 => populatePlatformsLoop rest db2
    | .error _ => populatePlatformsLoop rest db

/-- src/utils/ingestion.py populate_platforms, as populate_customers. -/
def populate_platforms (platforms : Option (List (Int × String))) (db : DB) :
    Except PyErr DB :=
  match platforms with
  | none => .error .attributeError
  | some m => .ok (populatePlatformsLoop m db)

/-- src/utils/ingestion.py get_case_fields: fetch the field-definition
payload (a transport failure propagates), resolve it, then populate
customers and then platforms; an exception from either populate call
propagates with the store as it stood when the exception was raised. -/
def get_case_fields (resp : Except PyErr (List FieldDescriptor)) (db : DB) :
    DB × Option PyErr :=
  match resp with
  | .error e => (db, some e)
  | .ok payload =>
    let result := get_customers_platforms payload
    match populate_customers result.customers db with
    | .error e => (db, some e)
    | .ok db2 =>
      match populate_platforms result.platforms db2 with
      | .error e => (db2, some e)
      | .ok db3 => (db3, none)

/-- One raw case record of a get_cases page, with the fields
import_test_cases_to_db reads.  persistFails injects the per-case exception
of the spec scenarios: when true, TestCase.objects.create raises for this
case. -/
structure Case where
  id : Option Int
  title : Option String
  refs : Option String
  custom_preconds : Option String
  custom_steps : Option String
  custom_expected : Option String
  custom_comments : Option String
  created_on : Option Int
  updated_on : Option Int
  section_id : Option Int
  custom_customers : Option (List Int)
  custom_platfroms : Option (List Int)
  persistFails : Bool
deriving DecidableEq

/-- The tickets computation: a truthy refs string is split on commas and
each piece stripped; a falsy refs (absent or empty) leaves tickets None. -/
def ticketsOf (refs : Option String) : Option (List String) :=
  match refs with
  | none => none
  | some r =>
    if r = "" then none
    else some ((splitOnChar ',' r.data).map (fun x => String.mk (stripChars x)))

/-- sections.get(case.section_id, Unnamed): dictionary lookup with a
default, an absent section id key included. -/
def lookupSection (sections : List (Int × String)) (sid : Option Int) : String :=
  match sid with
  | none => "Unnamed"
  | some i => ((sections.find? (fun p => p.1 = i)).map Prod.snd).getD "Unnamed"

/-- The record import_test_cases_to_db builds and persists for one case,
attachments included: customers.set receives the TestCaseCustomer rows whose
primary key lies in the custom_customers list (pk__in filtering), and set is
only called when the list is truthy; likewise for platforms. -/
def importOneCase (project suite : String) (sections : List (Int × String))
    (db : DB) (c : Case) : TCRecord :=
  { test_rail_id := c.id,
    title := c.title,
    tickets := ticketsOf c.refs,
    tr_created_at := convert_timestamp c.created_on,
    tr_updated_at := convert_timestamp c.updated_on,
    preconditions := sanitize_test_case_text (some (c.custom_preconds.getD "")),
    steps := sanitize_test_case_text (some (c.custom_steps.getD "")),
    expected_result := sanitize_test_case_text (some (c.custom_expected.getD "")),
    comments := sanitize_test_case_text c.custom_comments,
    project := project,
    suite := suite,
    sectionName := lookupSection sections c.section_id,
    attachedCustomers :=
      match c.custom_customers with
      | some l => if l = [] then none
          else some (db.customers.filter (fun r => (r.pk : Int) ∈ l))
      | none => none,
    attachedPlatforms :=
      match c.custom_platfroms with
      | some l => if l = [] then none
          else some (db.platforms.filter (fun r => (r.pk : Int) ∈ l))
      | none => none }

/-- The page import loop: the single try/except wraps the whole for-loop, so
the first case whose create raises ends the page with the store as already
committed (creates are individually committed, nothing rolls back) and the
exception is logged, not propagated. -/
def importCasesLoop (project suite : String) (sections : List (Int × String)) :
    List Case → DB → DB
  | [], db => db
  | c :: rest, db =>
    if c.persistFails then db
    else importCasesLoop project suite sections rest
      { db with testCases := db.testCases ++ [importOneCase project suite sections db c] }

/-- src/utils/ingestion.py import_test_cases_to_db: a falsy cases value
(absent key or empty list) returns at once; otherwise the guarded page loop
runs. -/
def import_test_cases_to_db (project suite : String)
    (sections : List (Int × String)) (cases : Option (List Case)) (db : DB) : DB :=
  match cases with
  | none => db
  | some cs => importCasesLoop project suite sections cs db

/-- One get_cases response page: the cases value and whether the _links
dictionary carries a next entry. -/
structure PageResp where
  cases : Option (List Case)
  next : Bool
deriving DecidableEq

/-- The recursion of get_test_cases over the remote pages.  The remote
serves the page at index offset / 250; since the offset starts at 0 and each
recursive call adds exactly 250, the still-unserved pages are passed as a
list consumed one page per fetch.  A fetch beyond the data yields a page
with no cases and no next link.  Returns the final store and the offsets
fetched, in order. -/
def getTestCasesFrom (project suite : String) (sections : List (Int × String)) :
    List PageResp → DB → Nat → DB × List Nat
  | [], db, offset => (db, [offset])
  | resp :: rest, db, offset =>
    let db2 := import_test_cases_to_db project suite sections resp.cases db
    if resp.next then
      let r := getTestCasesFrom project suite sections rest db2 (offset + 250)
      (r.1, offset :: r.2)
    else (db2, [offset])

/-- src/utils/ingestion.py get_test_cases: fetch at offset 0 with limit 250,
then import the page, and repeat at offset + 250 while the response carries
a next link. -/
def get_test_cases (pages : List PageResp) (project suite : String)
    (sections : List (Int × String)) (db : DB) : DB × List Nat :=
  getTestCasesFrom project suite sections pages db 0

/-- How many fetches the pagination loop issues for a given page list: one
for the first page, and one more per consecutive leading page that carries a
next link. -/
def fetchCount : List PageResp → Nat
  | [] => 1
  | resp :: rest => if resp.next then 1 + fetchCount rest else 1

/-- Everything the pipeline reads from outside: the mode flag and the remote
responses (each either a payload or a transport failure). -/
structure Env where
  fetch_fields : Bool
  caseFieldsResp : Except PyErr (List FieldDescriptor)
  projectResp : Except PyErr (Option String)
  suiteResp : Except PyErr (Option String)
  sectionsResp : Except PyErr (List (Int × String))
  pages : List PageResp

/-- The body of the try block of ingest_test_rail: field-definition path
when the flag is set, otherwise metadata fetches followed by the paginated
case ingestion.  The second component is the exception escaping the body, if
any, with the store as committed up to that point. -/
def ingestBody (env : Env) (db : DB) : DB × Option PyErr :=
  if env.fetch_fields then get_case_fields env.caseFieldsResp db
  else
    match env.projectResp with
    | .error e => (db, some e)
    | .ok pname =>
      match env.suiteResp with
      | .error e => (db, some e)
      | .ok sname =>
        match env.sectionsResp with
        | .error e => (db, some e)
        | .ok sections =>
          ((get_test_cases env.pages (pname.getD "Unnamed") (sname.getD "Unnamed")
              sections db).1, none)

/-- What the caller of ingest_test_rail observes: a normal return, or a
propagated exception. -/
inductive Outcome where
  | normalReturn (db : DB)
  | raised (e : PyErr)
deriving DecidableEq

/-- src/utils/ingestion.py ingest_test_rail: the whole body sits in one
try/except Exception block whose handler only logs, so any exception the
body raises is swallowed and the call returns normally. -/
def ingest_test_rail (env : Env) (db : DB) : Outcome :=
  match ingestBody env db with
  | (db2, some _) => .normalReturn db2
  | (db2, none) => .normalReturn db2

/-- A concrete case record used in the closed instances below: external id n,
and persistFails injecting the per-case exception when true. -/
def sampleCase (n : Int) (fails : Bool) : Case :=
  { id := some n,
    title := some "case",
    refs := none,
    custom_preconds := some "1. step one",
    custom_steps := none,
    custom_expected := none,
    custom_comments := none,
    created_on := some 1700000000,
    updated_on := none,
    section_id := none,
    custom_customers := none,
    custom_platfroms := none,
    persistFails := fails }

/-! ## Theorems -/

theorem splitOnNl_ne_nil (l : List Char) : splitOnNl l ≠ [] := by
  match l with
  | [] => simp [splitOnNl]
  | c :: rest =>
    unfold splitOnNl
    by_cases h : c = '\n'
    · simp [h]
    · simp only [h, if_false]
      cases hr : splitOnNl rest <;> simp

theorem sanitizeLines_length (ls : List (List Char)) (i : Nat) :
    (sanitizeLines i ls).length = ls.length := by
  induction ls generalizing i with
  | nil => rfl
  | cons l rest ih => simp [sanitizeLines, ih]

theorem sanitizeLines_map_order (ls : List (List Char)) (i : Nat) :
    (sanitizeLines i ls).map Step.order = List.range' i ls.length := by
  induction ls generalizing i with
  | nil => rfl
  | cons l rest ih => simp [sanitizeLines, List.range', ih]

theorem sanitizeLines_getElem? (ls : List (List Char)) (i k : Nat) :
    (sanitizeLines i ls)[k]? = ls[k]?.map (fun l => ⟨i + k, sanitizeLine l⟩) := by
  induction ls generalizing i k with
  | nil => simp [sanitizeLines]
  | cons l rest ih =>
    cases k with
    | zero => simp [sanitizeLines]
    | succ k2 =>
      simp only [sanitizeLines, List.getElem?_cons_succ, ih (i + 1) k2]
      have : i + 1 + k2 = i + (k2 + 1) := by omega
      rw [this]

/-- C9: the Text Normalizer is total (it is a function defined on every
Option String, with no partiality anywhere in its call tree), and its result
is the empty sequence exactly when the input is absent or the empty string —
never null and never an error. -/
theorem c9_normalizer_total_empty_iff (t : Option String) :
    sanitize_test_case_text t = [] ↔ (t = none ∨ t = some "") := by
  cases t with
  | none => simp [sanitize_test_case_text]
  | some s =>
    by_cases hs : s = ""
    · subst hs; simp [sanitize_test_case_text]
    · simp only [sanitize_test_case_text, hs, if_false]
      constructor
      · intro h
        obtain ⟨a, as, hcons⟩ :=
          List.exists_cons_of_ne_nil (splitOnNl_ne_nil (stripChars s.data))
        rw [hcons] at h
        simp [sanitizeLines] at h
      · intro h
        rcases h with h | h
        · exact absurd h (by simp)
        · exact absurd h (by simp [hs])

/-- C2 counterexample: on the input a-newline-newline-b the normalizer emits
three records with orders 1, 2, 3 although only two lines have content, so
it does not emit one record per non-empty line and the orders do not stop at
the number of lines with content; the interior empty line contributes a
record. -/
theorem c2_counterexample_empty_line_record :
    (sanitize_test_case_text (some "a\n\nb")).length = 3 ∧
    ((splitOnNl ("a\n\nb").data).filter (fun l => !l.isEmpty)).length = 2 ∧
    (sanitize_test_case_text (some "a\n\nb")).map Step.order = [1, 2, 3] := by
  decide

/-- C2 amended: for every non-empty input string, the normalizer emits
exactly one record per line of the whitespace-stripped text split on
newlines — interior empty lines contribute records too — in original line
order, and the order fields are exactly the contiguous sequence from 1 to
the number of such lines. -/
theorem c2_order_contiguous_per_line (s : String) (hs : s ≠ "") :
    (sanitize_test_case_text (some s)).map Step.order
        = List.range' 1 (splitOnNl (stripChars s.data)).length ∧
    (sanitize_test_case_text (some s)).length
        = (splitOnNl (stripChars s.data)).length ∧
    ∀ (k : Nat) (l : List Char), (splitOnNl (stripChars s.data))[k]? = some l →
      (sanitize_test_case_text (some s))[k]? = some (Step.mk (k + 1) (sanitizeLine l)) := by
  simp only [sanitize_test_case_text, hs, if_false]
  refine ⟨sanitizeLines_map_order _ _, sanitizeLines_length _ _, ?_⟩
  intro k l hk
  rw [sanitizeLines_getElem?, hk]
  simp [Nat.add_comm]

/-- C2 amended, witnessed at the concrete input of the counterexample: the
three lines of the stripped text yield orders 1, 2, 3 and record 2 carries
the (empty) second line. -/
theorem c2_order_contiguous_witness :
    (sanitize_test_case_text (some "a\n\nb")).map Step.order
        = List.range' 1 (splitOnNl (stripChars ("a\n\nb").data)).length ∧
    (sanitize_test_case_text (some "a\n\nb")).length
        = (splitOnNl (stripChars ("a\n\nb").data)).length ∧
    ∀ (k : Nat) (l : List Char), (splitOnNl (stripChars ("a\n\nb").data))[k]? = some l →
      (sanitize_test_case_text (some "a\n\nb"))[k]? = some (Step.mk (k + 1) (sanitizeLine l)) :=
  c2_order_contiguous_per_line "a\n\nb" (by decide)

/-- C10 counterexample: the epoch-seconds value 0 is not converted to the
UTC instant representing epoch 0 — the Python truthiness test treats it like
an absent value and stores None. -/
theorem c10_zero_epoch_dropped :
    convert_timestamp (some 0) = none ∧
    convert_timestamp (some 0) ≠ some ⟨0⟩ := by
  decide

/-- C10 amended: every nonzero epoch-seconds value is converted to the
timezone-aware UTC instant with that epoch value, an absent timestamp maps
to an absent stored value, and the imported record stores exactly these
conversions for both source timestamps; the zero epoch value, however, also
maps to absent. -/
theorem c10_timestamps_converted (v : Int) (hv : v ≠ 0) :
    convert_timestamp (some v) = some ⟨v⟩ ∧
    convert_timestamp none = none ∧
    ∀ project suite sections db c,
      (importOneCase project suite sections db c).tr_created_at
          = convert_timestamp c.created_on ∧
      (importOneCase project suite sections db c).tr_updated_at
          = convert_timestamp c.updated_on := by
  refine ⟨by simp [convert_timestamp, hv], rfl, ?_⟩
  intro project suite sections db c
  exact ⟨rfl, rfl⟩

/-- C10 amended, witnessed at epoch value 1700000000 (and None). -/
theorem c10_timestamps_converted_witness :
    convert_timestamp (some 1700000000) = some ⟨1700000000⟩ ∧
    convert_timestamp none = none ∧
    ∀ project suite sections db c,
      (importOneCase project suite sections db c).tr_created_at
          = convert_timestamp c.created_on ∧
      (importOneCase project suite sections db c).tr_updated_at
          = convert_timestamp c.updated_on :=
  c10_timestamps_converted 1700000000 (by decide)

/-- C3: whatever the environment supplies — transport failures on any fetch,
a field payload that makes the populate path raise, fault-injected cases —
ingest_test_rail returns normally; the outermost try/except swallows every
exception the body can produce. -/
theorem c3_ingest_never_raises (env : Env) (db : DB) :
    ∃ db2, ingest_test_rail env db = Outcome.normalReturn db2 := by
  unfold ingest_test_rail
  rcases h : ingestBody env db with ⟨db2, e⟩
  cases e <;> exact ⟨db2, rfl⟩

/-- C4 (code bug trace): with one customer lookup row whose auto primary key
is 1 and whose external customer id is 5, a case listing external id 5 gets
an empty attachment — the pk-in filter matches the automatic primary key,
not the external identifier — although filtering by external id would find
exactly the existing row. -/
theorem c4_attachment_filters_on_auto_pk :
    (importOneCase "P" "S" []
        { emptyDB with customers := [⟨1, 5, "Acme"⟩], custSeq := 2 }
        { sampleCase 9 false with custom_customers := some [5] }).attachedCustomers
      = some [] ∧
    ([⟨1, 5, "Acme"⟩] : List CustomerRow).filter
        (fun r => r.customer_id ∈ [(5 : Int)]) = [⟨1, 5, "Acme"⟩] := by
  decide

/-- C5 (code bug trace): a field-definition payload that carries only the
platform descriptor makes get_case_fields raise AttributeError out of
populate_customers (None has no items method), leaving the store untouched,
although the resolver did deliver the platform entries that should have been
populated. -/
theorem c5_missing_field_descriptor_raises :
    get_case_fields
        (.ok [⟨some "custom_platfroms", some [⟨some "1, iOS"⟩]⟩]) emptyDB
      = (emptyDB, some PyErr.attributeError) ∧
    (get_customers_platforms
        [⟨some "custom_platfroms", some [⟨some "1, iOS"⟩]⟩]).customers = none ∧
    (get_customers_platforms
        [⟨some "custom_platfroms", some [⟨some "1, iOS"⟩]⟩]).platforms
      = some [(1, "iOS")] := by
  decide

theorem getTestCasesFrom_offsets (project suite : String)
    (sections : List (Int × String)) (pages : List PageResp) (db : DB)
    (offset : Nat) :
    (getTestCasesFrom project suite sections pages db offset).2
      = List.range' offset (fetchCount pages) 250 := by
  induction pages generalizing db offset with
  | nil => simp [getTestCasesFrom, fetchCount, List.range']
  | cons resp rest ih =>
    by_cases hn : resp.next
    · simp only [getTestCasesFrom, fetchCount, hn, if_true]
      rw [ih, Nat.add_comm 1 (fetchCount rest)]
      rfl
    · simp [getTestCasesFrom, fetchCount, hn, List.range']

/-- C6: pagination starts at offset 0 and advances by exactly 250 per fetch
(the offsets fetched are the arithmetic progression with step 250, one term
per page while next links last), and on a two-page listing — page 1 with a
next link, page 2 without — exactly two fetches are issued, at offsets 0 and
250, and both pages are imported in order. -/
theorem c6_pagination_fixed_step (project suite : String)
    (sections : List (Int × String)) (pages : List PageResp) (db : DB)
    (page1 page2 : Option (List Case)) (db2 : DB) :
    (get_test_cases pages project suite sections db).2
        = List.range' 0 (fetchCount pages) 250 ∧
    get_test_cases [⟨page1, true⟩, ⟨page2, false⟩] project suite sections db2
        = (import_test_cases_to_db project suite sections page2
            (import_test_cases_to_db project suite sections page1 db2), [0, 250]) := by
  exact ⟨getTestCasesFrom_offsets project suite sections pages db 0, rfl⟩

theorem importOneCase_update_testCases (project suite : String)
    (sections : List (Int × String)) (t : List TCRecord) (db : DB) :
    importOneCase project suite sections { db with testCases := t }
      = importOneCase project suite sections db := rfl

theorem importCasesLoop_fault (project suite : String)
    (sections : List (Int × String)) (pre : List Case) (c : Case)
    (post : List Case) (db : DB)
    (hpre : ∀ x ∈ pre, x.persistFails = false) (hc : c.persistFails = true) :
    importCasesLoop project suite sections (pre ++ c :: post) db
      = { db with
          testCases := db.testCases
            ++ pre.map (importOneCase project suite sections db) } := by
  induction pre generalizing db with
  | nil =>
    simp only [List.nil_append, importCasesLoop, hc, if_true, List.map_nil,
      List.append_nil]
  | cons x pre2 ih =>
    have hx : x.persistFails = false := hpre x (by simp)
    have hrest : ∀ y ∈ pre2, y.persistFails = false :=
      fun y hy => hpre y (by simp [hy])
    simp only [List.cons_append, importCasesLoop, hx, Bool.false_eq_true,
      if_false, List.append_eq]
    rw [ih _ hrest]
    simp only [importOneCase_update_testCases, List.append_nil, List.map_cons,
      List.append_assoc, List.singleton_append]

/-- C1: when case c of a page raises while every case before it persists,
the page import commits exactly the records of the cases before c (no
rollback), creates nothing for c or the cases after it, returns without
propagating, and on a two-page listing the synchronizer still fetches the
next page at offset 250 and imports it. -/
theorem c1_page_fault_isolation (project suite : String)
    (sections : List (Int × String)) (pre : List Case) (c : Case)
    (post : List Case) (db : DB) (nextCases : Option (List Case))
    (hpre : ∀ x ∈ pre, x.persistFails = false) (hc : c.persistFails = true) :
    import_test_cases_to_db project suite sections (some (pre ++ c :: post)) db
      = { db with
          testCases := db.testCases
            ++ pre.map (importOneCase project suite sections db) } ∧
    get_test_cases [⟨some (pre ++ c :: post), true⟩, ⟨nextCases, false⟩]
        project suite sections db
      = (import_test_cases_to_db project suite sections nextCases
          { db with
            testCases := db.testCases
              ++ pre.map (importOneCase project suite sections db) },
         [0, 250]) := by
  have h1 : import_test_cases_to_db project suite sections
      (some (pre ++ c :: post)) db
      = { db with
          testCases := db.testCases
            ++ pre.map (importOneCase project suite sections db) } :=
    importCasesLoop_fault project suite sections pre c post db hpre hc
  refine ⟨h1, ?_⟩
  simp only [get_test_cases, getTestCasesFrom, h1]
  rfl

/-- C1 witnessed on the spec scenario: a five-case page whose third case
fails imports exactly cases 1 and 2, and the next page (one further case) is
still fetched at offset 250 and imported. -/
theorem c1_page_fault_isolation_witness :
    (∀ x ∈ [sampleCase 1 false, sampleCase 2 false], x.persistFails = false) ∧
    (sampleCase 3 true).persistFails = true ∧
    (import_test_cases_to_db "P" "S" []
        (some ([sampleCase 1 false, sampleCase 2 false]
          ++ sampleCase 3 true :: [sampleCase 4 false, sampleCase 5 false]))
        emptyDB
      = { emptyDB with
          testCases := emptyDB.testCases
            ++ [sampleCase 1 false, sampleCase 2 false].map
                (importOneCase "P" "S" [] emptyDB) } ∧
    get_test_cases
        [⟨some ([sampleCase 1 false, sampleCase 2 false]
            ++ sampleCase 3 true :: [sampleCase 4 false, sampleCase 5 false]), true⟩,
         ⟨some [sampleCase 6 false], false⟩] "P" "S" [] emptyDB
      = (import_test_cases_to_db "P" "S" [] (some [sampleCase 6 false])
          { emptyDB with
            testCases := emptyDB.testCases
              ++ [sampleCase 1 false, sampleCase 2 false].map
                  (importOneCase "P" "S" [] emptyDB) },
         [0, 250])) :=
  ⟨by decide, by decide,
    c1_page_fault_isolation "P" "S" [] [sampleCase 1 false, sampleCase 2 false]
      (sampleCase 3 true) [sampleCase 4 false, sampleCase 5 false] emptyDB
      (some [sampleCase 6 false]) (by decide) (by decide)⟩

/-- C8: given an actual id-to-label mapping, the Populator never raises: it
returns the store extended by fresh rows only — every pre-existing row
survives verbatim (so no label of an existing id is updated or merged), each
appended row carries an external id that had no row before the call, and
after the call every id of the mapping has a row, so a duplicate-id failure
on one entry does not stop the remaining entries from being created. -/
theorem c8_populate_skips_duplicates (m : List (Int × String)) (db : DB) :
    ∃ newRows,
      populate_customers (some m) db
        = .ok { db with
            customers := db.customers ++ newRows,
            custSeq := db.custSeq + newRows.length } ∧
      (∀ r ∈ newRows, ∀ q ∈ db.customers, q.customer_id ≠ r.customer_id) ∧
      (∀ p ∈ m, ∃ q ∈ db.customers ++ newRows, q.customer_id = p.1) := by
  simp only [populate_customers, Except.ok.injEq]
  induction m generalizing db with
  | nil =>
    exact ⟨[], by simp [populateCustomersLoop], by simp, by simp⟩
  | cons entry rest ih =>
    rcases entry with ⟨cid, name⟩
    by_cases hdup : db.customers.any (fun r => r.customer_id = cid)
    · obtain ⟨nr, h1, h2, h3⟩ := ih db
      refine ⟨nr, ?_, h2, ?_⟩
      · simpa [populateCustomersLoop, createCustomer, hdup] using h1
      · intro p hp
        rcases List.mem_cons.mp hp with hp | hp
        · obtain ⟨q, hq, hqid⟩ := List.any_eq_true.mp hdup
          exact ⟨q, List.mem_append_left _ hq, by
            subst hp; exact of_decide_eq_true hqid⟩
        · exact h3 p hp
    · set row : CustomerRow := ⟨db.custSeq, cid, name⟩ with hrow
      obtain ⟨nr, h1, h2, h3⟩ := ih { db with
        customers := db.customers ++ [row], custSeq := db.custSeq + 1 }
      refine ⟨row :: nr, ?_, ?_, ?_⟩
      · simp only [populateCustomersLoop, createCustomer, hdup,
          Bool.false_eq_true, if_false]
        rw [h1]
        simp only [List.append_assoc, List.singleton_append, List.length_cons,
          DB.mk.injEq, true_and, and_true]
        omega
      · intro r hr q hq
        rcases List.mem_cons.mp hr with hr | hr
        · subst hr
          intro hqr
          have : db.customers.any (fun r => r.customer_id = cid) = true :=
            List.any_eq_true.mpr ⟨q, hq, by simp [hrow] at hqr; simp [hqr]⟩
          exact hdup this
        · exact h2 r hr q (by simp [hq])
      · intro p hp
        rcases List.mem_cons.mp hp with hp | hp
        · exact ⟨row, by simp, by simp [hrow, hp]⟩
        · obtain ⟨q, hq, hqid⟩ := h3 p hp
          refine ⟨q, ?_, hqid⟩
          simp only [List.mem_append] at hq ⊢
          rcases hq with hq | hq
          · simp only [List.mem_append, List.mem_singleton] at hq
            rcases hq with hq | hq
            · exact Or.inl hq
            · exact Or.inr (by simp [hq])
          · exact Or.inr (by simp [hq])

theorem dropWhile_eq_self_of_not (p : Char → Bool) (l : List Char)
    (h : ∀ c ∈ l, p c = false) : l.dropWhile p = l := by
  cases l with
  | nil => rfl
  | cons c cs => simp [List.dropWhile_cons, h c (List.mem_cons_self c cs)]

theorem stripChars_eq_self (l : List Char)
    (h : ∀ c ∈ l, isPySpace c = false) : stripChars l = l := by
  unfold stripChars
  rw [dropWhile_eq_self_of_not _ _ h,
    dropWhile_eq_self_of_not _ _ (fun c hc => h c (List.mem_reverse.mp hc)),
    List.reverse_reverse]

theorem isPySpace_eq_false_of_isDigit (c : Char) (h : c.isDigit = true) :
    isPySpace c = false := by
  cases hc : isPySpace c with
  | false => rfl
  | true =>
    exfalso
    simp only [isPySpace, Bool.or_eq_true, decide_eq_true_eq] at hc
    rcases hc with ((((h1 | h1) | h1) | h1) | h1) | h1 <;> subst h1 <;>
      exact absurd h (by decide)

theorem digitsCore_isSome (l : List Char) (acc : Nat)
    (h : ∀ c ∈ l, c.isDigit = true) : ∃ n, digitsCore acc l = some n := by
  induction l generalizing acc with
  | nil => exact ⟨acc, rfl⟩
  | cons c cs ih =>
    have hc := h c (by simp)
    rw [show digitsCore acc (c :: cs)
        = digitsCore (10 * acc + (c.toNat - 48)) cs from by
      rw [digitsCore.eq_def]; simp [hc]]
    exact ih _ (fun d hd => h d (by simp [hd]))

theorem pyIntOfChars_of_digits (l : List Char) (hne : l ≠ [])
    (h : ∀ c ∈ l, c.isDigit = true) : ∃ n, pyIntOfChars l = some n := by
  unfold pyIntOfChars
  rw [stripChars_eq_self l (fun c hc => isPySpace_eq_false_of_isDigit c (h c hc))]
  cases l with
  | nil => exact absurd rfl hne
  | cons c cs =>
    have hplus : c ≠ '+' := fun e => by
      subst e; exact absurd (h '+' (by simp)) (by decide)
    have hminus : c ≠ '-' := fun e => by
      subst e; exact absurd (h '-' (by simp)) (by decide)
    simp only [if_neg hplus, if_neg hminus]
    have hc := h c (by simp)
    simp only [parseDigitsU, hc, if_true]
    obtain ⟨n, hn⟩ :=
      digitsCore_isSome cs (c.toNat - 48) (fun d hd => h d (by simp [hd]))
    exact ⟨Int.ofNat n, by rw [hn]; rfl⟩

theorem parseItemLine_isSome_of_specWellFormed (l : List Char)
    (h : specWellFormedItemLine l = true) : (parseItemLine l).isSome = true := by
  unfold specWellFormedItemLine at h
  unfold parseItemLine
  cases hs : splitCommaSpace l with
  | nil => rw [hs] at h; simp at h
  | cons p0 rest =>
    cases rest with
    | nil => rw [hs] at h; simp at h
    | cons p1 rest2 =>
      rw [hs] at h
      have hint : specIntLiteral p0 = true := h
      rw [specIntLiteral, Bool.and_eq_true] at hint
      obtain ⟨hne, hdig⟩ := hint
      rw [List.all_eq_true] at hdig
      obtain ⟨n, hn⟩ := pyIntOfChars_of_digits p0
        (by simpa [List.isEmpty_iff] using hne)
        (fun c hc => by simpa using hdig c hc)
      simp [hn]

/-- C7 amended: a line whose leading comma-space-separated field does not
parse as a Python integer is skipped without raising and without losing any
other line's entry (removing it from the payload leaves the result
unchanged), and every line of the spec's int-comma-space-text shape yields
an entry; but skipping is decided only by the integer parse of the first
field, so a line such as a bare number with no comma-space-text part is NOT
skipped — it yields an entry with an empty label. -/
theorem c7_malformed_line_skipped (pre : List (List Char)) (bad : List Char)
    (post : List (List Char)) (acc : List (Int × String)) (line : List Char)
    (hbad : parseItemLine bad = none) :
    itemsLoop acc (pre ++ bad :: post) = itemsLoop acc (pre ++ post) ∧
    (specWellFormedItemLine line = true → (parseItemLine line).isSome = true) := by
  constructor
  · induction pre generalizing acc with
    | nil => simp only [List.nil_append, itemsLoop, hbad]
    | cons x pre2 ih =>
      simp only [List.cons_append, itemsLoop]
      cases hx : parseItemLine x with
      | none => exact ih _
      | some p => exact ih _
  · exact parseItemLine_isSome_of_specWellFormed line

/-- C7 counterexample: the line consisting of the bare number 12 does not
parse as int-comma-space-text, yet the Field Resolver does not skip it — it
produces the entry mapping 12 to the empty label, as the full payload run
shows. -/
theorem c7_counterexample_bare_number_kept :
    parseItemLine ("12".data) = some (12, "") ∧
    specWellFormedItemLine ("12".data) = false ∧
    parseItemsToDict "12\n3, foo" = [(12, ""), (3, "foo")] := by
  decide

/-- C7 amended, witnessed on the spec scenario: the malformed line abc among
two valid lines is skipped, leaving exactly the valid entries, and the valid
line parses. -/
theorem c7_malformed_line_skipped_witness :
    parseItemLine ("abc".data) = none ∧
    (itemsLoop [] (["1, Acme".data] ++ "abc".data :: ["2, Globex".data])
        = itemsLoop [] (["1, Acme".data] ++ ["2, Globex".data]) ∧
      (specWellFormedItemLine ("1, Acme".data) = true →
        (parseItemLine ("1, Acme".data)).isSome = true)) :=
  ⟨by decide,
    c7_malformed_line_skipped ["1, Acme".data] ("abc".data) ["2, Globex".data]
      [] ("1, Acme".data) (by decide)⟩
